import Mathlib

/-!
# Verification of the secure-messaging core (crypto.py, repository.py, services.py)

Shallow embedding of the password-derived message encryption scheme and the
message lifecycle/access-control state machine of the Mini-Project-Message
repository.

Modelling conventions:
* Python `bytes` values are `List Nat` with every element `< 256`.
* Python `str` values are Lean `String`.
* Randomness (`os.urandom`) is passed in as explicit `salt`/`nonce` arguments.
* The external cryptography library (PBKDF2HMAC, AESGCM) and the codec
  libraries (`base64`, `str.encode`) are not part of the repository; they are
  modelled by executable functions satisfying their documented contracts
  (deterministic key derivation; AEAD sealing whose decryption either
  recovers the plaintext or fails; standard base64 framing; UTF-8 codec).
* Python exceptions are modelled with `Except String`, the error being the
  message of the exception that escapes the function.
* The MongoDB message collection is modelled as an association list from
  message ids to message documents.
-/

/-- Python `bytes` values: lists of byte values. -/
abbrev Bytes := List Nat

/-! ## Base64 (models the `base64` standard library used by `crypto.py`) -/

/-- Standard base64 alphabet: maps a sextet (0..63) to its character. -/
def sextetToChar (n : Nat) : Char :=
  if n < 26 then Char.ofNat (65 + n)
  else if n < 52 then Char.ofNat (71 + n)
  else if n < 62 then Char.ofNat (n - 4)
  else if n = 62 then '+'
  else '/'

/-- Inverse of the base64 alphabet; `none` on characters outside it. -/
def charToSextet (c : Char) : Option Nat :=
  let n := c.toNat
  if 65 ≤ n ∧ n ≤ 90 then some (n - 65)
  else if 97 ≤ n ∧ n ≤ 122 then some (n - 71)
  else if 48 ≤ n ∧ n ≤ 57 then some (n + 4)
  else if n = 43 then some 62
  else if n = 47 then some 63
  else none

/-- Base64-encode a byte list, three bytes per four characters, with
`=` padding on the final partial group (standard `base64.b64encode`). -/
def b64EncodeChunks : Bytes → List Char
  | [] => []
  | [a] =>
      [sextetToChar (a / 4), sextetToChar (a % 4 * 16), '=', '=']
  | [a, b] =>
      [sextetToChar (a / 4), sextetToChar (a % 4 * 16 + b / 16),
       sextetToChar (b % 16 * 4), '=']
  | a :: b :: c :: rest =>
      sextetToChar (a / 4) :: sextetToChar (a % 4 * 16 + b / 16) ::
      sextetToChar (b % 16 * 4 + c / 64) :: sextetToChar (c % 64) ::
      b64EncodeChunks rest

/-- Base64-decode a character list (standard `base64.b64decode`): groups of
four characters, `=` padding allowed only in the final group; `none` on
malformed input. -/
def b64DecodeChunks : List Char → Option Bytes
  | [] => some []
  | c1 :: c2 :: c3 :: c4 :: rest =>
    match charToSextet c1, charToSextet c2 with
    | some s1, some s2 =>
      if c3 = '=' then
        if c4 = '=' ∧ rest = [] ∧ s2 % 16 = 0 then some [s1 * 4 + s2 / 16]
        else none
      else
        match charToSextet c3 with
        | some s3 =>
          if c4 = '=' then
            if rest = [] ∧ s3 % 4 = 0 then
              some [s1 * 4 + s2 / 16, s2 % 16 * 16 + s3 / 4]
            else none
          else
            match charToSextet c4 with
            | some s4 =>
              match b64DecodeChunks rest with
              | some tail =>
                  some ((s1 * 4 + s2 / 16) :: (s2 % 16 * 16 + s3 / 4) ::
                        (s3 % 4 * 64 + s4) :: tail)
              | none => none
            | none => none
        | none => none
    | _, _ => none
  | _ => none

/-- `base64.b64encode(data).decode('utf-8')`: byte list to base64 string. -/
def b64Encode (bs : Bytes) : String := String.mk (b64EncodeChunks bs)

/-- `base64.b64decode(text)`: base64 string to byte list, `none` on error. -/
def b64Decode (s : String) : Option Bytes := b64DecodeChunks s.data

/-! ## UTF-8 (models Python `str.encode('utf-8')` / `bytes.decode('utf-8')`) -/

/-- UTF-8 encoding of one character. -/
def utf8EncodeChar (c : Char) : Bytes :=
  let n := c.toNat
  if n < 128 then [n]
  else if n < 2048 then [192 + n / 64, 128 + n % 64]
  else if n < 65536 then [224 + n / 4096, 128 + n / 64 % 64, 128 + n % 64]
  else [240 + n / 262144, 128 + n / 4096 % 64, 128 + n / 64 % 64, 128 + n % 64]

/-- UTF-8 encoding of a character list. -/
def utf8EncodeList : List Char → Bytes
  | [] => []
  | c :: cs => utf8EncodeChar c ++ utf8EncodeList cs

/-- `message.encode('utf-8')`. -/
def utf8Encode (s : String) : Bytes := utf8EncodeList s.data

/-- Decodes one UTF-8 sequence from its leading byte and the remaining bytes:
returns the code point and the leftover bytes, or `none` on malformed data. -/
def utf8DecodeStep (b1 : Nat) (rest : Bytes) : Option (Nat × Bytes) :=
  if b1 < 128 then some (b1, rest)
  else if b1 < 192 then none
  else if b1 < 224 then
    match rest with
    | b2 :: rest2 =>
        if 128 ≤ b2 ∧ b2 < 192 then some ((b1 - 192) * 64 + (b2 - 128), rest2)
        else none
    | [] => none
  else if b1 < 240 then
    match rest with
    | b2 :: b3 :: rest3 =>
        if (128 ≤ b2 ∧ b2 < 192) ∧ (128 ≤ b3 ∧ b3 < 192) then
          some ((b1 - 224) * 4096 + (b2 - 128) * 64 + (b3 - 128), rest3)
        else none
    | _ => none
  else if b1 < 248 then
    match rest with
    | b2 :: b3 :: b4 :: rest4 =>
        if (128 ≤ b2 ∧ b2 < 192) ∧ (128 ≤ b3 ∧ b3 < 192) ∧ (128 ≤ b4 ∧ b4 < 192) then
          some ((b1 - 240) * 262144 + (b2 - 128) * 4096 + (b3 - 128) * 64 + (b4 - 128),
                rest4)
        else none
    | _ => none
  else none

/-- UTF-8 decoding of a byte list, with fuel bounding the number of decoded
characters (each character consumes at least one byte, so fuel equal to the
byte count always suffices). -/
def utf8DecodeFuel : Nat → Bytes → Option (List Char)
  | _, [] => some []
  | 0, _ :: _ => none
  | fuel + 1, b1 :: rest =>
    match utf8DecodeStep b1 rest with
    | some (n, rest2) =>
      match utf8DecodeFuel fuel rest2 with
      | some cs => some (Char.ofNat n :: cs)
      | none => none
    | none => none

/-- `data.decode('utf-8')`: byte list to string, `none` on malformed data. -/
def utf8Decode (bs : Bytes) : Option String :=
  (utf8DecodeFuel bs.length bs).map String.mk

/-! ## CryptoManager (crypto.py)

Constants from `CryptoManager.__init__`: AES-256-GCM with a 32-byte key, a
16-byte salt and a 12-byte nonce. -/

def key_length : Nat := 32

def salt_length : Nat := 16

def nonce_length : Nat := 12

/-- A deterministic byte digest, used to model the external one-way
primitives (PBKDF2 and the GCM tag): folds the seed into `width` bytes. -/
def byteDigest (seed : Bytes) (mult width : Nat) : Bytes :=
  (List.range width).map
    (fun i => seed.foldl (fun a b => (a * mult + b + 1) % 256) ((i * 7 + 3) % 256))

/-- Embeds `CryptoManager._derive_key` (crypto.py lines 28-36):
PBKDF2-HMAC-SHA256, 100000 iterations, 32-byte key. The external KDF is
modelled by a deterministic executable digest of the UTF-8 password bytes
and the salt — deterministic in (password, salt), exactly the contract the
code relies on. -/
def derive_key (password : String) (salt : Bytes) : Bytes :=
  byteDigest (utf8Encode password ++ salt) 31 key_length

/-- Models the 16-byte GCM authentication tag computed by `AESGCM` from the
key, the nonce and the data. -/
def ghashTag (key nonce data : Bytes) : Bytes :=
  byteDigest (key ++ nonce ++ data) 33 16

/-- Models `AESGCM(key).encrypt(nonce, data, None)`: ciphertext with the
16-byte tag appended. The AEAD cipher is idealized (identity encryption plus
authentication tag): decryption recovers exactly the sealed data and fails
when the tag does not verify, which is the library contract the code uses. -/
def aesgcmEncrypt (key nonce data : Bytes) : Bytes :=
  data ++ ghashTag key nonce data

/-- Models `AESGCM(key).decrypt(nonce, sealed, None)`: splits off the
16-byte tag, recomputes and verifies it; `none` models `InvalidTag`. -/
def aesgcmDecrypt (key nonce sealed : Bytes) : Option Bytes :=
  if sealed.length < 16 then none
  else
    let data := sealed.take (sealed.length - 16)
    let tg := sealed.drop (sealed.length - 16)
    if tg = ghashTag key nonce data then some data else none

/-- Embeds `CryptoManager.encrypt_message` (crypto.py lines 38-70). The
`os.urandom` salt and nonce are explicit arguments; the error value is the
message of the Python exception that escapes (the body of the `try` block
cannot fail, so only the empty-input `ValueError` is reachable). -/
def encrypt_message (message password : String) (salt nonce : Bytes) :
    Except String String :=
  if message = "" ∨ password = "" then
    .error "Mensagem e senha não podem estar vazias."
  else
    let key := derive_key password salt
    let ciphertext := aesgcmEncrypt key nonce (utf8Encode message)
    let encrypted_data := salt ++ nonce ++ ciphertext
    .ok (b64Encode encrypted_data)

/-- Embeds `CryptoManager.decrypt_message` (crypto.py lines 72-106). Every
failure inside the `try` block — base64 decoding error, decoded data shorter
than `salt_length + nonce_length`, tag verification failure, UTF-8 decoding
error — is caught by the broad `except Exception` handler and re-raised as
the single uniform error `"Chave incorreta! Acesso negado."`. -/
def decrypt_message (encrypted_b64 password : String) : Except String String :=
  if encrypted_b64 = "" ∨ password = "" then
    .error "Dados criptografados e senha não podem estar vazias."
  else
    match b64Decode encrypted_b64 with
    | none => .error "Chave incorreta! Acesso negado."
    | some encrypted_data =>
      if encrypted_data.length < salt_length + nonce_length then
        .error "Chave incorreta! Acesso negado."
      else
        let salt := encrypted_data.take salt_length
        let nonce := (encrypted_data.drop salt_length).take nonce_length
        let ciphertext := encrypted_data.drop (salt_length + nonce_length)
        let key := derive_key password salt
        match aesgcmDecrypt key nonce ciphertext with
        | none => .error "Chave incorreta! Acesso negado."
        | some decrypted_bytes =>
          match utf8Decode decrypted_bytes with
          | none => .error "Chave incorreta! Acesso negado."
          | some decrypted_message => .ok decrypted_message

/-- Embeds `CryptoManager.validate_password_strength` (crypto.py lines
108-121): non-empty, length at least 8, at least one letter and one digit.
(Python's Unicode `isalpha`/`isdigit` are modelled by `Char.isAlpha` /
`Char.isDigit`.) -/
def validate_password_strength (password : String) : Bool :=
  if password = "" then false
  else if password.length < 8 then false
  else
    let has_letter := password.data.any (fun c => c.isAlpha)
    let has_digit := password.data.any (fun c => c.isDigit)
    has_letter && has_digit

/-! ## Message store (repository.py) -/

/-- A message document in the `messages` collection, as inserted by
`MessageRepository.create_message`: sender, recipient, encrypted content and
status (`"unread"` or `"read"`). The `sent_at` timestamp carries no logic in
the verified operations and is omitted. -/
structure Message where
  from_user : String
  to_user : String
  content_encrypted : String
  status : String
deriving Repr, DecidableEq

/-- The `messages` collection: association list from message id (`_id`) to
document. MongoDB ids are unique; `find_one`/`update_one` act on the first
match. -/
abbrev DB := List (Nat × Message)

/-- Embeds `MessageRepository.get_message_by_id` (repository.py lines
253-275): `find_one` on `_id`; `None` when absent. -/
def get_message_by_id (db : DB) (message_id : Nat) : Option Message :=
  (db.find? (fun p => p.1 == message_id)).map (fun p => p.2)

/-- The write performed by `update_one({_id: id}, {$set: {status: "read"}})`:
sets the status of the first document with the given id to `"read"`,
unconditionally on its current status. -/
def setStatusRead : DB → Nat → DB
  | [], _ => []
  | q :: rest, message_id =>
      if q.1 == message_id then
        (q.1, { q.2 with status := "read" }) :: rest
      else
        q :: setStatusRead rest message_id

/-- Embeds `MessageRepository.mark_message_as_read` (repository.py lines
224-251). The `update_one` filter matches on the id only — it does not test
the current status. The boolean is `modified_count > 0`: true iff a document
with the id exists and its status actually changed (MongoDB does not count
setting a field to its present value as a modification). -/
def mark_message_as_read (db : DB) (message_id : Nat) : DB × Bool :=
  match db.find? (fun p => p.1 == message_id) with
  | none => (db, false)
  | some p => (setStatusRead db message_id, !(p.2.status == "read"))

/-- Embeds `MessageRepository.create_message` (repository.py lines 121-148):
`insert_one` of a new document with status `"unread"`; returns the new
collection and the success flag (storage faults are out of scope, so the
insert succeeds). -/
def create_message (db : DB) (new_id : Nat)
    (from_user to_user encrypted_content : String) : DB × Bool :=
  (db ++ [(new_id,
    { from_user := from_user, to_user := to_user,
      content_encrypted := encrypted_content, status := "unread" })], true)

/-- Embeds `UserRepository.user_exists` (repository.py lines 96-106): the
user directory is the list of usernames in the `users` collection. -/
def user_exists (users : List String) (username : String) : Bool :=
  users.contains username

/-! ## Services (services.py) -/

/-- `recipient.startswith('@')`: the first character is `@`. -/
def startsWithAtSign (s : String) : Bool := s.data.head? == some '@'

/-- Embeds `UserService.validate_recipient` (services.py lines 107-137):
format check (must start with `@`), then existence lookup. -/
def validate_recipient (users : List String) (recipient : String) : Bool :=
  if !(startsWithAtSign recipient) then false
  else user_exists users recipient

/-- Embeds `MessageService.send_message` (services.py lines 152-213). The
explicit arguments carry the collaborators: the user directory, the fresh id
the store assigns on insert, and the salt/nonce randomness consumed by
encryption. Returns the updated collection and the `(success, status
message)` pair. -/
def send_message (db : DB) (users : List String)
    (from_user to_user message secret_key : String)
    (salt nonce : Bytes) (new_id : Nat) : DB × (Bool × String) :=
  if message.length < 50 then
    (db, (false, "A mensagem deve ter pelo menos 50 caracteres."))
  else if !(validate_recipient users to_user) then
    (db, (false, "Destinatario " ++ to_user ++ " nao encontrado."))
  else if !(validate_password_strength secret_key) then
    (db, (false,
      "A chave secreta deve ter pelo menos 8 caracteres, contendo letras e numeros."))
  else
    match encrypt_message message secret_key salt nonce with
    | .error e => (db, (false, "Erro na criptografia: " ++ e))
    | .ok encrypted_content =>
      let r := create_message db new_id from_user to_user encrypted_content
      if r.2 then (r.1, (true, "Mensagem enviada com sucesso!"))
      else (r.1, (false, "Erro ao salvar mensagem no banco de dados."))

/-- The decision part of `MessageService.read_message` (services.py lines
312-351): the first database round trip (`get_message_by_id`) plus all local
checks and the decryption attempt, computed from the fetched snapshot.
Returns the `(success, status message, decrypted content)` triple. -/
def read_decision (db : DB) (message_id : Nat) (secret_key username : String) :
    Bool × String × String :=
  match get_message_by_id db message_id with
  | none => (false, "Mensagem nao encontrada.", "")
  | some message =>
    if message.to_user ≠ username then
      (false, "Acesso negado. Esta mensagem nao e sua.", "")
    else if message.status = "read" then
      (false, "Esta mensagem ja foi lida.", "")
    else
      match decrypt_message message.content_encrypted secret_key with
      | .error _ => (false, "Chave incorreta! Acesso negado.", "")
      | .ok decrypted_content =>
          (true, "Mensagem lida com sucesso!", decrypted_content)

/-- The completion part of `MessageService.read_message`: when the decision
succeeded, the second database round trip (`mark_message_as_read`, line 340)
runs — its boolean result is discarded — and the decision triple is returned
unchanged. `db_at_mark` is the store state at the time of the write, which
under concurrent access may differ from the snapshot the decision used. -/
def read_complete (db_at_mark : DB) (message_id : Nat)
    (decision : Bool × String × String) : DB × (Bool × String × String) :=
  if decision.1 then ((mark_message_as_read db_at_mark message_id).1, decision)
  else (db_at_mark, decision)

/-- Embeds `MessageService.read_message` (services.py lines 291-356): the
decision computed on the current store, completed on that same store (the
sequential, single-caller execution). -/
def read_message (db : DB) (message_id : Nat) (secret_key username : String) :
    DB × (Bool × String × String) :=
  read_complete db message_id (read_decision db message_id secret_key username)

/-- Two concurrent read attempts on the same message in the racing
interleaving: both callers take their snapshot (first round trip and local
decision) before either performs its status write; the completions then run
in sequence. Returns both result triples and the final store. -/
def race_reads (db : DB) (message_id : Nat) (key1 user1 key2 user2 : String) :
    (Bool × String × String) × (Bool × String × String) × DB :=
  let d1 := read_decision db message_id key1 user1
  let d2 := read_decision db message_id key2 user2
  let c1 := read_complete db message_id d1
  let c2 := read_complete c1.1 message_id d2
  (c1.2, c2.2, c2.1)

/-! ## Concrete sample data (used by the evaluation witnesses) -/

/-- A passphrase accepted by the validation policy. -/
def pass0 : String := "Secret123"

/-- A 50-character plaintext message. -/
def msg0 : String := "Mensagem secreta de teste com cinquenta caracteres"

/-- A concrete 16-byte salt, standing for one draw of `os.urandom(16)`. -/
def salt0 : Bytes := List.range 16

/-- A concrete 12-byte nonce, standing for one draw of `os.urandom(12)`. -/
def nonce0 : Bytes := List.range 12

/-- The envelope produced by encrypting `msg0` under `pass0` with
`salt0`/`nonce0`. -/
def env0 : String := (encrypt_message msg0 pass0 salt0 nonce0).toOption.getD ""

/-- An unread message document from `@a` to `@b` whose content is `env0`. -/
def m0 : Message :=
  { from_user := "@a", to_user := "@b", content_encrypted := env0,
    status := "unread" }

/-- A store holding `m0` under id 1. -/
def db0 : DB := [(1, m0)]

/-- A user directory. -/
def users0 : List String := ["@a", "@b"]

/-! ## Codec and cipher lemmas -/
theorem charToSextet_sextetToChar {n : Nat} (h : n < 64) :
    charToSextet (sextetToChar n) = some n := by
  have key : ∀ m : Fin 64, charToSextet (sextetToChar m.val) = some m.val := by decide
  exact key ⟨n, h⟩

theorem sextetToChar_ne_pad {n : Nat} (h : n < 64) : sextetToChar n ≠ '=' := by
  intro he
  have := charToSextet_sextetToChar h
  rw [he] at this
  simp [charToSextet] at this

theorem b64_roundtrip (bs : Bytes) (h : ∀ b ∈ bs, b < 256) :
    b64DecodeChunks (b64EncodeChunks bs) = some bs := by
  induction bs using b64EncodeChunks.induct with
  | case1 => rfl
  | case2 a =>
      have ha : a < 256 := h a (by simp)
      simp only [b64EncodeChunks, b64DecodeChunks,
        charToSextet_sextetToChar (show a / 4 < 64 by omega),
        charToSextet_sextetToChar (show a % 4 * 16 < 64 by omega)]
      rw [if_pos trivial, if_pos ⟨trivial, trivial, by omega⟩]
      have e1 : a / 4 * 4 + a % 4 * 16 / 16 = a := by omega
      rw [e1]
  | case3 a b =>
      have ha : a < 256 := h a (by simp)
      have hb : b < 256 := h b (by simp)
      simp only [b64EncodeChunks, b64DecodeChunks,
        charToSextet_sextetToChar (show a / 4 < 64 by omega),
        charToSextet_sextetToChar (show a % 4 * 16 + b / 16 < 64 by omega),
        charToSextet_sextetToChar (show b % 16 * 4 < 64 by omega)]
      rw [if_neg (sextetToChar_ne_pad (show b % 16 * 4 < 64 by omega))]
      rw [if_pos trivial, if_pos ⟨trivial, by omega⟩]
      have e1 : a / 4 * 4 + (a % 4 * 16 + b / 16) / 16 = a := by omega
      have e2 : (a % 4 * 16 + b / 16) % 16 * 16 + b % 16 * 4 / 4 = b := by omega
      rw [e1, e2]
  | case4 a b c rest ih =>
      have ha : a < 256 := h a (by simp)
      have hb : b < 256 := h b (by simp)
      have hc : c < 256 := h c (by simp)
      have hrest : ∀ x ∈ rest, x < 256 := fun x hx => h x (by simp [hx])
      simp only [b64EncodeChunks, b64DecodeChunks,
        charToSextet_sextetToChar (show a / 4 < 64 by omega),
        charToSextet_sextetToChar (show a % 4 * 16 + b / 16 < 64 by omega),
        charToSextet_sextetToChar (show b % 16 * 4 + c / 64 < 64 by omega),
        charToSextet_sextetToChar (show c % 64 < 64 by omega), ih hrest]
      rw [if_neg (sextetToChar_ne_pad (show b % 16 * 4 + c / 64 < 64 by omega))]
      rw [if_neg (sextetToChar_ne_pad (show c % 64 < 64 by omega))]
      have e1 : a / 4 * 4 + (a % 4 * 16 + b / 16) / 16 = a := by omega
      have e2 : (a % 4 * 16 + b / 16) % 16 * 16 + (b % 16 * 4 + c / 64) / 4 = b := by omega
      have e3 : (b % 16 * 4 + c / 64) % 4 * 64 + c % 64 = c := by omega
      rw [e1, e2, e3]

theorem b64Decode_b64Encode (bs : Bytes) (h : ∀ b ∈ bs, b < 256) :
    b64Decode (b64Encode bs) = some bs := by
  unfold b64Decode b64Encode
  exact b64_roundtrip bs h


theorem char_toNat_lt (c : Char) : c.toNat < 1114112 := by
  rcases c.valid with h | h
  · exact Nat.lt_trans h (by norm_num)
  · exact h.2

theorem utf8EncodeChar_bytes_lt (c : Char) : ∀ b ∈ utf8EncodeChar c, b < 256 := by
  have hc := char_toNat_lt c
  intro b hb
  simp only [utf8EncodeChar] at hb
  by_cases h1 : c.toNat < 128
  · simp only [h1, if_true] at hb
    simp at hb
    omega
  · by_cases h2 : c.toNat < 2048
    · simp only [h1, h2, if_false, if_true] at hb
      simp at hb
      rcases hb with rfl | rfl <;> omega
    · by_cases h3 : c.toNat < 65536
      · simp only [h1, h2, h3, if_false, if_true] at hb
        simp at hb
        rcases hb with rfl | rfl | rfl <;> omega
      · simp only [h1, h2, h3, if_false] at hb
        simp at hb
        rcases hb with rfl | rfl | rfl | rfl <;> omega

theorem utf8EncodeList_bytes_lt (cs : List Char) : ∀ b ∈ utf8EncodeList cs, b < 256 := by
  induction cs with
  | nil => simp [utf8EncodeList]
  | cons c cs ih =>
      intro b hb
      rw [utf8EncodeList, List.mem_append] at hb
      rcases hb with hb | hb
      · exact utf8EncodeChar_bytes_lt c b hb
      · exact ih b hb

theorem utf8DecodeStep_encodeChar (c : Char) (tail : Bytes) :
    ∃ b1 rest, utf8EncodeChar c = b1 :: rest ∧
      utf8DecodeStep b1 (rest ++ tail) = some (c.toNat, tail) := by
  have hc := char_toNat_lt c
  by_cases h1 : c.toNat < 128
  · refine ⟨c.toNat, [], by simp [utf8EncodeChar, h1], ?_⟩
    simp only [List.nil_append, utf8DecodeStep]
    rw [if_pos h1]
  · by_cases h2 : c.toNat < 2048
    · refine ⟨192 + c.toNat / 64, [128 + c.toNat % 64], by simp [utf8EncodeChar, h1, h2], ?_⟩
      simp only [List.cons_append, List.nil_append, utf8DecodeStep]
      rw [if_neg (by omega), if_neg (by omega), if_pos (by omega)]
      rw [if_pos (by constructor <;> omega)]
      have e : (192 + c.toNat / 64 - 192) * 64 + (128 + c.toNat % 64 - 128) = c.toNat := by
        omega
      rw [e]
    · by_cases h3 : c.toNat < 65536
      · refine ⟨224 + c.toNat / 4096, [128 + c.toNat / 64 % 64, 128 + c.toNat % 64],
          by simp [utf8EncodeChar, h1, h2, h3], ?_⟩
        simp only [List.cons_append, List.nil_append, utf8DecodeStep]
        rw [if_neg (by omega), if_neg (by omega), if_neg (by omega), if_pos (by omega)]
        rw [if_pos (by refine ⟨⟨?_, ?_⟩, ?_, ?_⟩ <;> omega)]
        have e : (224 + c.toNat / 4096 - 224) * 4096 + (128 + c.toNat / 64 % 64 - 128) * 64 +
            (128 + c.toNat % 64 - 128) = c.toNat := by
          omega
        rw [e]
      · refine ⟨240 + c.toNat / 262144,
          [128 + c.toNat / 4096 % 64, 128 + c.toNat / 64 % 64, 128 + c.toNat % 64],
          by simp [utf8EncodeChar, h1, h2, h3], ?_⟩
        simp only [List.cons_append, List.nil_append, utf8DecodeStep]
        rw [if_neg (by omega), if_neg (by omega), if_neg (by omega), if_neg (by omega),
          if_pos (by omega)]
        rw [if_pos (by refine ⟨⟨?_, ?_⟩, ⟨?_, ?_⟩, ?_, ?_⟩ <;> omega)]
        have e : (240 + c.toNat / 262144 - 240) * 262144 +
            (128 + c.toNat / 4096 % 64 - 128) * 4096 +
            (128 + c.toNat / 64 % 64 - 128) * 64 + (128 + c.toNat % 64 - 128) = c.toNat := by
          omega
        rw [e]

theorem utf8_roundtrip_fuel (cs : List Char) (fuel : Nat)
    (hf : (utf8EncodeList cs).length ≤ fuel) :
    utf8DecodeFuel fuel (utf8EncodeList cs) = some cs := by
  induction cs generalizing fuel with
  | nil => cases fuel <;> rfl
  | cons c cs ih =>
      obtain ⟨b1, rest, henc, hstep⟩ := utf8DecodeStep_encodeChar c (utf8EncodeList cs)
      rw [utf8EncodeList, henc] at hf ⊢
      cases fuel with
      | zero => simp at hf
      | succ f =>
          simp only [List.cons_append, utf8DecodeFuel, List.append_eq, hstep]
          rw [ih f (by simp at hf; omega)]
          rw [Char.ofNat_toNat]

theorem utf8Decode_utf8Encode (s : String) : utf8Decode (utf8Encode s) = some s := by
  unfold utf8Decode utf8Encode
  rw [utf8_roundtrip_fuel s.data (utf8EncodeList s.data).length (Nat.le_refl _)]
  rfl

theorem byteDigest_length (seed : Bytes) (mult width : Nat) :
    (byteDigest seed mult width).length = width := by
  simp [byteDigest]

theorem foldl_digest_lt (seed : Bytes) (mult : Nat) :
    ∀ init < 256, seed.foldl (fun a b => (a * mult + b + 1) % 256) init < 256 := by
  induction seed with
  | nil =>
      intro init h
      simpa using h
  | cons x xs ih =>
      intro init h
      rw [List.foldl_cons]
      exact ih _ (Nat.mod_lt _ (by norm_num))

theorem byteDigest_bytes_lt (seed : Bytes) (mult width : Nat) :
    ∀ b ∈ byteDigest seed mult width, b < 256 := by
  intro b hb
  simp only [byteDigest, List.mem_map] at hb
  obtain ⟨i, _, rfl⟩ := hb
  exact foldl_digest_lt seed mult _ (Nat.mod_lt _ (by norm_num))

theorem aesgcm_roundtrip (key nonce data : Bytes) :
    aesgcmDecrypt key nonce (aesgcmEncrypt key nonce data) = some data := by
  have htag : (ghashTag key nonce data).length = 16 := byteDigest_length _ _ _
  unfold aesgcmDecrypt aesgcmEncrypt
  simp only [List.length_append, htag]
  rw [if_neg (by omega)]
  have e : data.length + 16 - 16 = data.length := by omega
  rw [e, List.take_left, List.drop_left, if_pos rfl]

theorem b64EncodeChunks_ne_nil (a : Nat) (t : Bytes) : b64EncodeChunks (a :: t) ≠ [] := by
  rcases t with _ | ⟨b, _ | ⟨c, rest⟩⟩ <;> simp [b64EncodeChunks]

theorem b64Encode_ne_empty (a : Nat) (t : Bytes) : b64Encode (a :: t) ≠ "" := by
  unfold b64Encode
  intro h
  exact b64EncodeChunks_ne_nil a t (by simpa using congrArg String.data h)

theorem encrypt_message_ok (message password : String) (salt nonce : Bytes)
    (hmsg : message ≠ "") (hpw : password ≠ "") :
    encrypt_message message password salt nonce =
      .ok (b64Encode (salt ++ nonce ++
            aesgcmEncrypt (derive_key password salt) nonce (utf8Encode message))) := by
  unfold encrypt_message
  rw [if_neg (by simp [hmsg, hpw])]

theorem decrypt_message_encrypt_message (message password : String) (salt nonce : Bytes)
    (hpw : password ≠ "")
    (hs : salt.length = 16) (hsb : ∀ b ∈ salt, b < 256)
    (hn : nonce.length = 12) (hnb : ∀ b ∈ nonce, b < 256) :
    decrypt_message
      (b64Encode (salt ++ nonce ++
        aesgcmEncrypt (derive_key password salt) nonce (utf8Encode message)))
      password = .ok message := by
  set ct := aesgcmEncrypt (derive_key password salt) nonce (utf8Encode message) with hct
  have hctlt : ∀ b ∈ ct, b < 256 := by
    intro b hb
    rw [hct] at hb
    unfold aesgcmEncrypt at hb
    rw [List.mem_append] at hb
    rcases hb with hb | hb
    · exact utf8EncodeList_bytes_lt message.data b hb
    · exact byteDigest_bytes_lt _ _ _ b hb
  have hdata_lt : ∀ b ∈ salt ++ nonce ++ ct, b < 256 := by
    intro b hb
    rw [List.append_assoc, List.mem_append, List.mem_append] at hb
    rcases hb with hb | hb | hb
    · exact hsb b hb
    · exact hnb b hb
    · exact hctlt b hb
  have hcons : ∃ a t, salt ++ nonce ++ ct = a :: t := by
    rcases salt with _ | ⟨a, t⟩
    · simp at hs
    · exact ⟨a, t ++ nonce ++ ct, by simp⟩
  obtain ⟨a, t, hat⟩ := hcons
  have henv : b64Encode (salt ++ nonce ++ ct) ≠ "" := by
    rw [hat]
    exact b64Encode_ne_empty a t
  unfold decrypt_message
  have hcond : ¬(b64Encode (salt ++ nonce ++ ct) = "" ∨ password = "") := by
    rintro (h | h)
    · exact henv h
    · exact hpw h
  rw [if_neg hcond]
  rw [b64Decode_b64Encode _ hdata_lt]
  simp only [salt_length, nonce_length]
  rw [if_neg (by simp only [List.length_append, hs, hn]; omega)]
  have h1 : (salt ++ nonce ++ ct).take 16 = salt := by
    rw [List.append_assoc]
    exact List.take_left' hs
  have h2 : ((salt ++ nonce ++ ct).drop 16).take 12 = nonce := by
    rw [List.append_assoc, List.drop_left' hs]
    exact List.take_left' hn
  have h3 : (salt ++ nonce ++ ct).drop (16 + 12) = ct := by
    exact List.drop_left' (by simp [hs, hn])
  simp only [h1, h2, h3]
  rw [hct, aesgcm_roundtrip]
  simp only [utf8Decode_utf8Encode]


/-! ## Store lemmas -/

theorem find?_setStatusRead (db : DB) (id : Nat) (q : Nat × Message)
    (h : db.find? (fun p => p.1 == id) = some q) :
    (setStatusRead db id).find? (fun p => p.1 == id) =
      some (q.1, { q.2 with status := "read" }) := by
  induction db with
  | nil => simp at h
  | cons r rest ih =>
      by_cases hr : (r.1 == id) = true
      · simp only [List.find?, hr] at h
        injection h with h
        subst h
        simp only [setStatusRead, if_pos hr]
        simp [List.find?, hr]
      · have hrf : (r.1 == id) = false := by
          rw [Bool.eq_false_iff]
          exact fun he => hr he
        simp only [List.find?, hrf] at h
        simp only [setStatusRead, if_neg hr]
        simp only [List.find?, hrf]
        exact ih h

theorem get_message_by_id_setStatusRead (db : DB) (id : Nat) (m : Message)
    (h : get_message_by_id db id = some m) :
    get_message_by_id (setStatusRead db id) id = some { m with status := "read" } := by
  unfold get_message_by_id at h ⊢
  cases hf : db.find? (fun p => p.1 == id) with
  | none => rw [hf] at h; simp at h
  | some q =>
      rw [hf, Option.map_some'] at h
      injection h with h
      rw [find?_setStatusRead db id q hf, Option.map_some']
      subst h
      rfl

theorem mark_message_as_read_of_found (db : DB) (id : Nat) (q : Nat × Message)
    (h : db.find? (fun p => p.1 == id) = some q) :
    mark_message_as_read db id = (setStatusRead db id, !(q.2.status == "read")) := by
  unfold mark_message_as_read
  rw [h]

theorem get_message_by_id_mark (db : DB) (id : Nat) (m : Message)
    (h : get_message_by_id db id = some m) :
    (mark_message_as_read db id).1 = setStatusRead db id ∧
    (mark_message_as_read db id).2 = !(m.status == "read") := by
  unfold get_message_by_id at h
  cases hf : db.find? (fun p => p.1 == id) with
  | none => rw [hf] at h; simp at h
  | some q =>
      rw [hf, Option.map_some'] at h
      injection h with h
      rw [mark_message_as_read_of_found db id q hf, h]
      exact ⟨rfl, rfl⟩

/-! ## Read-path lemmas -/

theorem read_decision_success (db : DB) (message_id : Nat) (secret_key username : String)
    (m : Message) (pt : String)
    (hm : get_message_by_id db message_id = some m)
    (hu : m.to_user = username) (hst : m.status = "unread")
    (hdec : decrypt_message m.content_encrypted secret_key = .ok pt) :
    read_decision db message_id secret_key username =
      (true, "Mensagem lida com sucesso!", pt) := by
  unfold read_decision
  simp only [hm]
  subst hu
  rw [if_neg (fun hne => hne rfl)]
  rw [if_neg (show ¬(m.status = "read") by rw [hst]; decide)]
  rw [hdec]

theorem read_decision_wrong_user (db : DB) (message_id : Nat)
    (secret_key username : String) (m : Message)
    (hm : get_message_by_id db message_id = some m)
    (hu : m.to_user ≠ username) :
    read_decision db message_id secret_key username =
      (false, "Acesso negado. Esta mensagem nao e sua.", "") := by
  unfold read_decision
  simp only [hm]
  rw [if_pos hu]

theorem read_decision_already_read (db : DB) (message_id : Nat)
    (secret_key username : String) (m : Message)
    (hm : get_message_by_id db message_id = some m)
    (hu : m.to_user = username) (hst : m.status = "read") :
    read_decision db message_id secret_key username =
      (false, "Esta mensagem ja foi lida.", "") := by
  unfold read_decision
  simp only [hm]
  subst hu
  rw [if_neg (fun hne => hne rfl)]
  rw [if_pos hst]

theorem read_decision_wrong_key (db : DB) (message_id : Nat)
    (secret_key username : String) (m : Message) (err : String)
    (hm : get_message_by_id db message_id = some m)
    (hu : m.to_user = username) (hst : m.status = "unread")
    (hdec : decrypt_message m.content_encrypted secret_key = .error err) :
    read_decision db message_id secret_key username =
      (false, "Chave incorreta! Acesso negado.", "") := by
  unfold read_decision
  simp only [hm]
  subst hu
  rw [if_neg (fun hne => hne rfl)]
  rw [if_neg (show ¬(m.status = "read") by rw [hst]; decide)]
  rw [hdec]

theorem read_message_of_decision_false (db : DB) (message_id : Nat)
    (secret_key username : String)
    (h : (read_decision db message_id secret_key username).1 = false) :
    read_message db message_id secret_key username =
      (db, read_decision db message_id secret_key username) := by
  unfold read_message read_complete
  rw [if_neg (by rw [h]; exact Bool.false_ne_true)]

theorem read_message_of_decision_true (db : DB) (message_id : Nat)
    (secret_key username : String)
    (h : (read_decision db message_id secret_key username).1 = true) :
    read_message db message_id secret_key username =
      ((mark_message_as_read db message_id).1,
       read_decision db message_id secret_key username) := by
  unfold read_message read_complete
  rw [if_pos h]

theorem read_complete_of_true (db_at_mark : DB) (message_id : Nat)
    (decision : Bool × String × String) (h : decision.1 = true) :
    read_complete db_at_mark message_id decision =
      ((mark_message_as_read db_at_mark message_id).1, decision) := by
  unfold read_complete
  rw [if_pos h]

/-! ## Claims -/

set_option maxRecDepth 8192

/-- C1: for every plaintext message and every passphrase accepted by the
validation policy (and every well-formed random salt and nonce), decrypting
the envelope produced by `encrypt_message` with that same passphrase
returns the original plaintext. -/
theorem C1_encrypt_decrypt_roundtrip (message password env : String)
    (salt nonce : Bytes)
    (hpw : validate_password_strength password = true)
    (hs : salt.length = 16) (hsb : ∀ b ∈ salt, b < 256)
    (hn : nonce.length = 12) (hnb : ∀ b ∈ nonce, b < 256)
    (henc : encrypt_message message password salt nonce = .ok env) :
    decrypt_message env password = .ok message := by
  have hpw' : password ≠ "" := by
    intro h
    rw [h] at hpw
    simp [validate_password_strength] at hpw
  by_cases hme : message = "" ∨ password = ""
  · unfold encrypt_message at henc
    rw [if_pos hme] at henc
    exact absurd henc (by simp)
  · push_neg at hme
    rw [encrypt_message_ok message password salt nonce hme.1 hme.2] at henc
    injection henc with henc
    rw [← henc]
    exact decrypt_message_encrypt_message message password salt nonce hpw' hs hsb hn hnb

/-- Evaluation witness for C1: concrete 50-character message, policy-approved
passphrase, fixed salt and nonce. -/
theorem C1_encrypt_decrypt_roundtrip_witness :
    decrypt_message env0 pass0 = .ok msg0 :=
  C1_encrypt_decrypt_roundtrip msg0 pass0 env0 salt0 nonce0
    (by decide) (by decide) (by decide) (by decide) (by decide) rfl

/-- C4: a read attempt by a requester other than the message's recipient
fails with the access-denied status, returns no plaintext, and leaves the
store (including the message status) unchanged. -/
theorem C4_access_denied (db : DB) (message_id : Nat)
    (secret_key username : String) (m : Message)
    (hm : get_message_by_id db message_id = some m)
    (hu : m.to_user ≠ username) :
    read_message db message_id secret_key username =
      (db, (false, "Acesso negado. Esta mensagem nao e sua.", "")) := by
  have hd := read_decision_wrong_user db message_id secret_key username m hm hu
  rw [read_message_of_decision_false db message_id secret_key username (by rw [hd])]
  rw [hd]

/-- Evaluation witness for C4: `@c` attempts to read `@b`'s message. -/
theorem C4_access_denied_witness :
    read_message db0 1 pass0 "@c" =
      (db0, (false, "Acesso negado. Esta mensagem nao e sua.", "")) :=
  C4_access_denied db0 1 pass0 "@c" m0 rfl (by decide)

/-- C5: a wrong-passphrase read on an unread message by its recipient fails
with the uniform wrong-key status, leaves the store unchanged (the message
remains unread), and a later read with a passphrase whose decryption
succeeds still succeeds — no lockout. -/
theorem C5_wrong_passphrase_no_lockout (db : DB) (message_id : Nat)
    (secret_key username err : String) (m : Message)
    (hm : get_message_by_id db message_id = some m)
    (hu : m.to_user = username) (hst : m.status = "unread")
    (hdec : decrypt_message m.content_encrypted secret_key = .error err) :
    read_message db message_id secret_key username =
      (db, (false, "Chave incorreta! Acesso negado.", "")) ∧
    (∀ key2 pt, decrypt_message m.content_encrypted key2 = .ok pt →
      (read_message db message_id key2 username).2 =
        (true, "Mensagem lida com sucesso!", pt)) := by
  constructor
  · have hd := read_decision_wrong_key db message_id secret_key username m err hm hu hst hdec
    rw [read_message_of_decision_false db message_id secret_key username (by rw [hd])]
    rw [hd]
  · intro key2 pt h2
    have hd := read_decision_success db message_id key2 username m pt hm hu hst h2
    rw [read_message_of_decision_true db message_id key2 username (by rw [hd])]
    rw [hd]

/-- Evaluation witness for C5: a wrong passphrase fails and leaves the store
unchanged; the correct passphrase then still succeeds. -/
theorem C5_wrong_passphrase_no_lockout_witness :
    read_message db0 1 "Different999" "@b" =
      (db0, (false, "Chave incorreta! Acesso negado.", "")) ∧
    (read_message db0 1 pass0 "@b").2 =
      (true, "Mensagem lida com sucesso!", msg0) := by
  have h := C5_wrong_passphrase_no_lockout db0 1 "Different999" "@b"
    "Chave incorreta! Acesso negado." m0 rfl rfl rfl rfl
  exact ⟨h.1, h.2 pass0 msg0 rfl⟩

/-- C2: a successful read by the recipient with the correct passphrase
returns the plaintext and transitions the stored status from unread to
read; afterwards every read attempt on that message by the recipient — with
any passphrase, including the correct one — fails with the already-read
status, returns no plaintext and changes nothing (so no decryption result
is ever delivered again). -/
theorem C2_one_shot_read (db : DB) (message_id : Nat)
    (secret_key username : String) (m : Message) (pt : String)
    (hm : get_message_by_id db message_id = some m)
    (hu : m.to_user = username) (hst : m.status = "unread")
    (hdec : decrypt_message m.content_encrypted secret_key = .ok pt) :
    (read_message db message_id secret_key username).2 =
      (true, "Mensagem lida com sucesso!", pt) ∧
    get_message_by_id (read_message db message_id secret_key username).1 message_id =
      some { m with status := "read" } ∧
    (∀ key2, read_message (read_message db message_id secret_key username).1
        message_id key2 username =
      ((read_message db message_id secret_key username).1,
       (false, "Esta mensagem ja foi lida.", ""))) := by
  have hd := read_decision_success db message_id secret_key username m pt hm hu hst hdec
  have hrm := read_message_of_decision_true db message_id secret_key username (by rw [hd])
  have hmark := (get_message_by_id_mark db message_id m hm).1
  have hget2 : get_message_by_id (read_message db message_id secret_key username).1
      message_id = some { m with status := "read" } := by
    rw [hrm]
    show get_message_by_id (mark_message_as_read db message_id).1 message_id = _
    rw [hmark]
    exact get_message_by_id_setStatusRead db message_id m hm
  refine ⟨by rw [hrm, hd], hget2, ?_⟩
  intro key2
  have hd2 := read_decision_already_read _ message_id key2 username _ hget2 hu rfl
  rw [read_message_of_decision_false _ message_id key2 username (by rw [hd2])]
  rw [hd2]

/-- Evaluation witness for C2 at the concrete store. -/
theorem C2_one_shot_read_witness :
    (read_message db0 1 pass0 "@b").2 =
      (true, "Mensagem lida com sucesso!", msg0) ∧
    get_message_by_id (read_message db0 1 pass0 "@b").1 1 =
      some { m0 with status := "read" } ∧
    (∀ key2, read_message (read_message db0 1 pass0 "@b").1 1 key2 "@b" =
      ((read_message db0 1 pass0 "@b").1,
       (false, "Esta mensagem ja foi lida.", ""))) :=
  C2_one_shot_read db0 1 pass0 "@b" m0 msg0 rfl rfl rfl rfl

/-- C10: the boolean result of `mark_message_as_read` is discarded by the
read path: whenever the decision phase succeeds, the completion reports
success and returns the plaintext for any store state at the time of the
status write — in particular even when the write modified nothing and the
call returned false. -/
theorem C10_mark_result_ignored (db db_at_mark : DB) (message_id : Nat)
    (secret_key username : String)
    (hsucc : (read_decision db message_id secret_key username).1 = true) :
    read_message db message_id secret_key username =
      ((mark_message_as_read db message_id).1,
        read_decision db message_id secret_key username) ∧
    read_complete db_at_mark message_id
        (read_decision db message_id secret_key username) =
      ((mark_message_as_read db_at_mark message_id).1,
        read_decision db message_id secret_key username) :=
  ⟨read_message_of_decision_true db message_id secret_key username hsucc,
   read_complete_of_true db_at_mark message_id _ hsucc⟩

/-- Evaluation witness for C10: completing against an empty store, where the
status write applies to nothing and `mark_message_as_read` returns false,
still reports success with the plaintext. -/
theorem C10_mark_result_ignored_witness :
    (mark_message_as_read ([] : DB) 1).2 = false ∧
    read_complete ([] : DB) 1 (read_decision db0 1 pass0 "@b") =
      ((mark_message_as_read ([] : DB) 1).1, read_decision db0 1 pass0 "@b") :=
  ⟨rfl, (C10_mark_result_ignored db0 [] 1 pass0 "@b" rfl).2⟩

/-- C3 counterexample: with one unread message and two racing
correct-passphrase readers — both snapshots taken before either status
write, the interleaving the claim is about — BOTH callers receive success
and the plaintext; it is not the case that exactly one receives the
plaintext and the other the already-read failure. -/
theorem C3_counterexample_both_receive_plaintext :
    (race_reads db0 1 pass0 "@b" pass0 "@b").1 =
      (true, "Mensagem lida com sucesso!", msg0) ∧
    (race_reads db0 1 pass0 "@b" pass0 "@b").2.1 =
      (true, "Mensagem lida com sucesso!", msg0) := by
  exact ⟨rfl, rfl⟩

/-- C3 amended: the status update performed by the read path is an
unconditional `update_one` keyed only by the message id; its boolean result
is true iff the status actually changed, but the read path discards it.
Hence, when two correct-passphrase read attempts race on the same unread
message (both snapshots taken before either write), BOTH callers receive
the plaintext; the loser's update reports false and the final status is
read. -/
theorem C3_amended_unconditional_update_race (db : DB) (message_id : Nat)
    (key1 key2 username : String) (m : Message) (pt1 pt2 : String)
    (hm : get_message_by_id db message_id = some m)
    (hu : m.to_user = username) (hst : m.status = "unread")
    (h1 : decrypt_message m.content_encrypted key1 = .ok pt1)
    (h2 : decrypt_message m.content_encrypted key2 = .ok pt2) :
    (race_reads db message_id key1 username key2 username).1 =
      (true, "Mensagem lida com sucesso!", pt1) ∧
    (race_reads db message_id key1 username key2 username).2.1 =
      (true, "Mensagem lida com sucesso!", pt2) ∧
    (mark_message_as_read db message_id).2 = true ∧
    (mark_message_as_read (mark_message_as_read db message_id).1 message_id).2 = false ∧
    get_message_by_id (race_reads db message_id key1 username key2 username).2.2
      message_id = some { m with status := "read" } := by
  have hd1 := read_decision_success db message_id key1 username m pt1 hm hu hst h1
  have hd2 := read_decision_success db message_id key2 username m pt2 hm hu hst h2
  have hmark1 := get_message_by_id_mark db message_id m hm
  have hget1 : get_message_by_id (mark_message_as_read db message_id).1 message_id =
      some { m with status := "read" } := by
    rw [hmark1.1]
    exact get_message_by_id_setStatusRead db message_id m hm
  have hmark2 := get_message_by_id_mark _ message_id { m with status := "read" } hget1
  have hc1 : read_complete db message_id (read_decision db message_id key1 username) =
      ((mark_message_as_read db message_id).1,
       read_decision db message_id key1 username) :=
    read_complete_of_true _ _ _ (by rw [hd1])
  have hc2 : read_complete (mark_message_as_read db message_id).1 message_id
        (read_decision db message_id key2 username) =
      ((mark_message_as_read (mark_message_as_read db message_id).1 message_id).1,
       read_decision db message_id key2 username) :=
    read_complete_of_true _ _ _ (by rw [hd2])
  refine ⟨?_, ?_, ?_, ?_, ?_⟩
  · show (read_complete db message_id (read_decision db message_id key1 username)).2 = _
    rw [hc1]
    exact hd1
  · show (read_complete (read_complete db message_id
        (read_decision db message_id key1 username)).1 message_id
        (read_decision db message_id key2 username)).2 = _
    rw [hc1]
    show (read_complete (mark_message_as_read db message_id).1 message_id
        (read_decision db message_id key2 username)).2 = _
    rw [hc2]
    exact hd2
  · rw [hmark1.2, hst]
    rfl
  · rw [hmark2.2]
    rfl
  · show get_message_by_id (read_complete (read_complete db message_id
        (read_decision db message_id key1 username)).1 message_id
        (read_decision db message_id key2 username)).1 message_id = _
    rw [hc1]
    show get_message_by_id (read_complete (mark_message_as_read db message_id).1
        message_id (read_decision db message_id key2 username)).1 message_id = _
    rw [hc2]
    show get_message_by_id
        (mark_message_as_read (mark_message_as_read db message_id).1 message_id).1
        message_id = _
    rw [hmark2.1]
    exact get_message_by_id_setStatusRead _ message_id { m with status := "read" } hget1

/-- Evaluation witness for the amended C3 at the concrete store. -/
theorem C3_amended_unconditional_update_race_witness :
    (race_reads db0 1 pass0 "@b" pass0 "@b").1 =
      (true, "Mensagem lida com sucesso!", msg0) ∧
    (race_reads db0 1 pass0 "@b" pass0 "@b").2.1 =
      (true, "Mensagem lida com sucesso!", msg0) ∧
    (mark_message_as_read db0 1).2 = true ∧
    (mark_message_as_read (mark_message_as_read db0 1).1 1).2 = false ∧
    get_message_by_id (race_reads db0 1 pass0 "@b" pass0 "@b").2.2 1 =
      some { m0 with status := "read" } :=
  C3_amended_unconditional_update_race db0 1 pass0 pass0 "@b" m0 msg0 msg0
    rfl rfl rfl rfl rfl

/-- C6: the strength check accepts a passphrase iff its length is at least 8
and it contains at least one letter and at least one digit; `"abcdefg"` and
`"abcdefgh"` are rejected, `"abcd1234"` is accepted, the empty passphrase is
rejected. -/
theorem C6_password_policy :
    (∀ password : String, validate_password_strength password = true ↔
      (8 ≤ password.length ∧ (∃ c ∈ password.data, c.isAlpha = true) ∧
       (∃ c ∈ password.data, c.isDigit = true))) ∧
    validate_password_strength "abcdefg" = false ∧
    validate_password_strength "abcdefgh" = false ∧
    validate_password_strength "abcd1234" = true ∧
    validate_password_strength "" = false := by
  refine ⟨?_, by decide, by decide, by decide, by decide⟩
  intro password
  unfold validate_password_strength
  by_cases h0 : password = ""
  · subst h0
    simp
  · rw [if_neg h0]
    by_cases h8 : password.length < 8
    · rw [if_pos h8]
      simp only [Bool.false_eq_true, false_iff]
      rintro ⟨h, -⟩
      omega
    · rw [if_neg h8]
      simp only [Bool.and_eq_true, List.any_eq_true]
      constructor
      · rintro ⟨ha, hd⟩
        exact ⟨by omega, ha, hd⟩
      · rintro ⟨-, ha, hd⟩
        exact ⟨ha, hd⟩

/-- Evaluation witness for C6: the characterization applied to a concrete
accepted passphrase. -/
theorem C6_password_policy_witness :
    validate_password_strength "abcd1234" = true ↔
      (8 ≤ ("abcd1234" : String).length ∧
       (∃ c ∈ ("abcd1234" : String).data, c.isAlpha = true) ∧
       (∃ c ∈ ("abcd1234" : String).data, c.isDigit = true)) :=
  C6_password_policy.1 "abcd1234"

theorem recipient_error_ne_length_error (to_user : String) :
    "Destinatario " ++ to_user ++ " nao encontrado." ≠
      "A mensagem deve ter pelo menos 50 caracteres." := by
  intro h
  have h2 : some 'D' = some 'A' := congrArg (fun s => s.data.head?) h
  exact absurd (Option.some.inj h2) (by decide)

theorem crypto_error_ne_length_error (e : String) :
    "Erro na criptografia: " ++ e ≠
      "A mensagem deve ter pelo menos 50 caracteres." := by
  intro h
  have h2 : some 'E' = some 'A' := congrArg (fun s => s.data.head?) h
  exact absurd (Option.some.inj h2) (by decide)

/-- C7: a send whose message body is shorter than 50 characters is rejected
with the status message naming the 50-character minimum, before any key
derivation or encryption (the store and the result do not depend on the
salt/nonce randomness and no message is created); a 50-character message
passes this check — whatever else happens, the result is never the
minimum-length rejection. -/
theorem C7_minimum_length (db : DB) (users : List String)
    (from_user to_user message secret_key : String)
    (salt nonce : Bytes) (new_id : Nat) :
    (message.length < 50 →
      send_message db users from_user to_user message secret_key salt nonce new_id =
        (db, (false, "A mensagem deve ter pelo menos 50 caracteres."))) ∧
    (50 ≤ message.length →
      (send_message db users from_user to_user message secret_key salt nonce
          new_id).2.2 ≠
        "A mensagem deve ter pelo menos 50 caracteres.") := by
  constructor
  · intro h
    unfold send_message
    rw [if_pos h]
  · intro h
    unfold send_message
    rw [if_neg (by omega)]
    split
    · exact recipient_error_ne_length_error to_user
    · split
      · dsimp only
        decide
      · cases hE : encrypt_message message secret_key salt nonce with
        | error e =>
            simp only [hE]
            exact crypto_error_ne_length_error e
        | ok enc =>
            simp only [hE, create_message]
            rw [if_pos trivial]
            dsimp only
            decide

/-- Evaluation witness for C7: a 5-character message is rejected with the
minimum-length status; the 50-character `msg0` is not. -/
theorem C7_minimum_length_witness :
    send_message db0 users0 "@a" "@b" "curta" pass0 salt0 nonce0 2 =
      (db0, (false, "A mensagem deve ter pelo menos 50 caracteres.")) ∧
    (send_message db0 users0 "@a" "@b" msg0 pass0 salt0 nonce0 2).2.2 ≠
      "A mensagem deve ter pelo menos 50 caracteres." :=
  ⟨(C7_minimum_length db0 users0 "@a" "@b" "curta" pass0 salt0 nonce0 2).1 (by decide),
   (C7_minimum_length db0 users0 "@a" "@b" msg0 pass0 salt0 nonce0 2).2 (by decide)⟩

/-- C9: every send that fails validation — message shorter than 50
characters, recipient that is malformed or unknown, or weak secret key —
returns failure with the corresponding status message, leaves the store
unchanged (no message created), and its result does not depend on the
encryption inputs (no encryption performed). -/
theorem C9_send_validation_failures (db : DB) (users : List String)
    (from_user to_user message secret_key : String)
    (salt nonce : Bytes) (new_id : Nat) :
    (message.length < 50 →
      send_message db users from_user to_user message secret_key salt nonce new_id =
        (db, (false, "A mensagem deve ter pelo menos 50 caracteres."))) ∧
    (50 ≤ message.length → validate_recipient users to_user = false →
      send_message db users from_user to_user message secret_key salt nonce new_id =
        (db, (false, "Destinatario " ++ to_user ++ " nao encontrado."))) ∧
    (50 ≤ message.length → validate_recipient users to_user = true →
      validate_password_strength secret_key = false →
      send_message db users from_user to_user message secret_key salt nonce new_id =
        (db, (false,
          "A chave secreta deve ter pelo menos 8 caracteres, contendo letras e numeros."))) := by
  refine ⟨?_, ?_, ?_⟩
  · intro h
    unfold send_message
    rw [if_pos h]
  · intro h hr
    unfold send_message
    rw [if_neg (by omega), if_pos (by rw [hr]; rfl)]
  · intro h hr hp
    unfold send_message
    rw [if_neg (by omega), if_neg (by rw [hr]; simp), if_pos (by rw [hp]; rfl)]

/-- Evaluation witness for C9: the three validation failures at concrete
inputs. -/
theorem C9_send_validation_failures_witness :
    send_message db0 users0 "@a" "@b" "curta" pass0 salt0 nonce0 2 =
      (db0, (false, "A mensagem deve ter pelo menos 50 caracteres.")) ∧
    send_message db0 users0 "@a" "@zz" msg0 pass0 salt0 nonce0 2 =
      (db0, (false, "Destinatario " ++ "@zz" ++ " nao encontrado.")) ∧
    send_message db0 users0 "@a" "@b" msg0 "weak" salt0 nonce0 2 =
      (db0, (false,
        "A chave secreta deve ter pelo menos 8 caracteres, contendo letras e numeros.")) :=
  ⟨(C9_send_validation_failures db0 users0 "@a" "@b" "curta" pass0 salt0 nonce0 2).1
      (by decide),
   (C9_send_validation_failures db0 users0 "@a" "@zz" msg0 pass0 salt0 nonce0 2).2.1
      (by decide) (by decide),
   (C9_send_validation_failures db0 users0 "@a" "@b" msg0 "weak" salt0 nonce0 2).2.2
      (by decide) (by decide) (by decide)⟩

/-- C8 counterexample: a malformed envelope — valid base64 decoding to only
3 bytes (fewer than the 28-byte salt-plus-nonce minimum), or text that is
not valid base64 at all — fails with exactly the same error as a
tag-verification failure (wrong passphrase on a well-formed envelope): the
broad exception handler collapses both into the uniform
"Chave incorreta! Acesso negado." error, so no FormatError distinct from
the authentication error exists. -/
theorem C8_counterexample_uniform_error :
    decrypt_message "AAAA" pass0 = .error "Chave incorreta! Acesso negado." ∧
    decrypt_message "!!!!" pass0 = .error "Chave incorreta! Acesso negado." ∧
    decrypt_message env0 "Different999" = .error "Chave incorreta! Acesso negado." ∧
    decrypt_message "AAAA" pass0 = decrypt_message env0 "Different999" :=
  ⟨rfl, rfl, rfl, rfl⟩

/-- C8 amended: for every non-empty envelope text that is not valid base64
or whose decoded length is less than 28 bytes, decryption fails — but with
the same uniform "Chave incorreta! Acesso negado." error that tag
verification failure produces, not a distinct FormatError. (The empty text
is instead rejected by the empty-input ValueError before decoding.) -/
theorem C8_amended_malformed_envelope_uniform_error (text password : String)
    (hne : text ≠ "") (hpw : password ≠ "")
    (hbad : b64Decode text = none ∨
      ∃ data, b64Decode text = some data ∧ data.length < 28) :
    decrypt_message text password = .error "Chave incorreta! Acesso negado." := by
  unfold decrypt_message
  rw [if_neg (by simp [hne, hpw])]
  rcases hbad with hb | ⟨data, hb, hlen⟩
  · rw [hb]
  · rw [hb]
    simp only [salt_length, nonce_length]
    rw [if_pos (by omega)]

/-- Evaluation witness for the amended C8: short valid base64 and invalid
base64 both yield the uniform error. -/
theorem C8_amended_malformed_envelope_uniform_error_witness :
    decrypt_message "AAAA" pass0 = .error "Chave incorreta! Acesso negado." ∧
    decrypt_message "!!!!" pass0 = .error "Chave incorreta! Acesso negado." :=
  ⟨C8_amended_malformed_envelope_uniform_error "AAAA" pass0 (by decide) (by decide)
      (Or.inr ⟨[0, 0, 0], rfl, by decide⟩),
   C8_amended_malformed_envelope_uniform_error "!!!!" pass0 (by decide) (by decide)
      (Or.inl rfl)⟩
